import Mathlib

/-!
Shallow embedding of the Turtle-Chemistry-Lib registry system
(`src/element.py`, `src/valence_element.py`, `src/atomic_group.py`).

Each Python class keeps a class-level registry (a list of instances) and one
or more key dictionaries mapping keys to registry indices.  The embedding
models each registry as an explicit state record, and each `__new__`
creation path as a function from state and data to `Except` of the new
instance and the new state.  Python exceptions (`ValueError` on key
conflicts, `KeyError`, `IndexError`, `ValueError` on malformed group
compositions) become constructors of `ChemError`.

Python `float` atomic weights are carried as exact rationals; no derivation
logic ever inspects them.  Python dictionaries (insertion only happens after
an absence check) are modelled as association lists with front-first lookup.
-/

deriving instance DecidableEq for Except

namespace TurtleChemistry

/-- Association-list lookup, the model of Python `dict[k]` /
`k in dict` on the registry key dictionaries. -/
def lookupKey {α β : Type} [DecidableEq α] (k : α) : List (α × β) → Option β
  | [] => none
  | (k', v) :: rest => if k = k' then some v else lookupKey k rest

/-- Decimal digit character, as produced by Python string formatting of a
nonnegative integer (code point 48 is the digit 0). -/
def digitChar10 (d : Nat) : Char := Char.ofNat (48 + d)

/-- Fueled core of the decimal rendering: with fuel above `n` it produces
the decimal digit string of `n`, most significant digit first. -/
def decimalDigitsCore : Nat → Nat → List Char
  | 0, _ => []
  | fuel + 1, n =>
    if n < 10 then [digitChar10 n]
    else decimalDigitsCore fuel (n / 10) ++ [digitChar10 (n % 10)]

/-- Decimal digit string of a natural number, most significant digit first:
the rendering Python f-strings use for a nonnegative `int`. -/
def decimalDigits (n : Nat) : List Char := decimalDigitsCore (n + 1) n

/-- Decimal rendering of a natural number as a string. -/
def decimalRepr (n : Nat) : String := String.mk (decimalDigits n)

/-- Numeric value of a decimal digit character. -/
def digitVal (c : Char) : Nat := c.toNat - 48

/-- Numeric value of a digit string, used to show decimal renderings of
distinct numbers are distinct. -/
def valueOfDigits (l : List Char) : Nat :=
  l.foldl (fun acc c => 10 * acc + digitVal c) 0

/-- Python `f"{v:+}"` on an `int`: the decimal rendering with an explicit
sign. -/
def fmtSigned (v : Int) : String :=
  if v < 0 then toString v else "+" ++ toString v

/-- Python truthiness of an optional string field: `None` and the empty
string are falsy, every other string is kept. -/
def strTruthy : Option String → Option String
  | some s => if s = "" then none else some s
  | none => none

/-- The exceptions the registry operations raise: `ValueError` on a key
collision, `IndexError` on an out-of-range index, `KeyError` on an unknown
key, and the `ValueError("基团元素数据错误")` raised on a malformed atomic
group composition. -/
inductive ChemError
  | keyConflict
  | indexOutOfRange
  | unknownKey
  | invalidComposition
deriving DecidableEq, Repr

/-! ## Element (`src/element.py`) -/

/-- The `ElementData` frozen dataclass. -/
structure ElementData where
  symbol : Option String := none
  name : Option String := none
  atomic_weight : Option Rat := none
deriving DecidableEq, Repr

/-- A registered `Element` instance: its registry index, the creation
payload, and the derived display symbol set by `_init`. -/
structure Element where
  index : Nat
  data : ElementData
  symbol : String
deriving DecidableEq, Repr

/-- The body of `Element.generate_symbol`:
`self.data.symbol if self.data.symbol else f"<Element {self.index}>"`. -/
def Element.generate_symbol (index : Nat) (data : ElementData) : String :=
  match strTruthy data.symbol with
  | some s => s
  | none => "<Element " ++ decimalRepr index ++ ">"

/-- The class-level state of the `Element` registry: `Element.registry` and
`Element.symbol_dictionary`. -/
structure ElementState where
  registry : List Element := []
  symbol_dictionary : List (String × Nat) := []
deriving DecidableEq, Repr

/-- The empty `Element` registry state. -/
def elementEmpty : ElementState := {}

/-- The creation path of `Element.__new__` (the branch taken when `data` is
supplied): allocate the next index, run `_init` (which derives the symbol),
raise `ValueError` if the symbol is already a key, otherwise append the
instance and record its symbol key. -/
def Element.create (s : ElementState) (data : ElementData) :
    Except ChemError (Element × ElementState) :=
  let new_index := s.registry.length
  let inst : Element := ⟨new_index, data, Element.generate_symbol new_index data⟩
  if (lookupKey inst.symbol s.symbol_dictionary).isSome then
    .error .keyConflict
  else
    .ok (inst,
      ⟨s.registry ++ [inst], (inst.symbol, new_index) :: s.symbol_dictionary⟩)

/-- The registry state after a creation attempt: a raised exception leaves
the Python class state untouched. -/
def Element.run_create (s : ElementState) (data : ElementData) : ElementState :=
  match Element.create s data with
  | .ok (_, s') => s'
  | .error _ => s

/-- A sequence of creation attempts, as `Element.extend_data` performs. -/
def Element.run_creates (s : ElementState) (ds : List ElementData) : ElementState :=
  ds.foldl Element.run_create s

/-- The integer-identifier branch of `Element.__new__`: bounds-checked
registry indexing. -/
def ElementState.get_by_index (s : ElementState) (i : Nat) : Except ChemError Element :=
  match s.registry[i]? with
  | some e => .ok e
  | none => .error .indexOutOfRange

/-- The string-identifier branch of `Element.__new__`: look the symbol up in
`symbol_dictionary`, then index the registry. -/
def ElementState.get_by_key (s : ElementState) (k : String) : Except ChemError Element :=
  match lookupKey k s.symbol_dictionary with
  | some i =>
    match s.registry[i]? with
    | some e => .ok e
    | none => .error .indexOutOfRange
  | none => .error .unknownKey

/-! ## ValenceElement (`src/valence_element.py`) -/

/-- The `ValenceElementData` frozen dataclass. -/
structure ValenceElementData where
  element : Element
  valence : Int
  symbol : Option String := none
  name : Option String := none
deriving DecidableEq, Repr

/-- A registered `ValenceElement` instance with the attributes `_init`
sets: index, payload, base element, valence, the `(element, valence)`
composition pair and the derived symbol. -/
structure ValenceElement where
  index : Nat
  data : ValenceElementData
  element : Element
  valence : Int
  composition : Element × Int
  symbol : String
deriving DecidableEq, Repr

/-- The body of `ValenceElement.generate_symbol`: the custom symbol if it is
truthy, else `f"{self.element.symbol}({self.valence:+})"`. -/
def ValenceElement.generate_symbol (data : ValenceElementData) : String :=
  match strTruthy data.symbol with
  | some s => s
  | none => data.element.symbol ++ "(" ++ fmtSigned data.valence ++ ")"

/-- `ValenceElement._init` at a given index: derives every instance
attribute from the payload. -/
def ValenceElement.init (index : Nat) (data : ValenceElementData) : ValenceElement :=
  ⟨index, data, data.element, data.valence, (data.element, data.valence),
    ValenceElement.generate_symbol data⟩

/-- The class-level state of the `ValenceElement` registry: `registry`,
`symbol_dictionary` and `composition_dictionary`. -/
structure ValenceElementState where
  registry : List ValenceElement := []
  symbol_dictionary : List (String × Nat) := []
  composition_dictionary : List ((Element × Int) × Nat) := []
deriving DecidableEq, Repr

/-- The empty `ValenceElement` registry state. -/
def valenceElementEmpty : ValenceElementState := {}

/-- The creation path of `ValenceElement.__new__`: allocate the next index,
run `_init`, raise on a symbol conflict, raise on a duplicate
`(element, valence)` composition, then append and record both keys. -/
def ValenceElement.create (s : ValenceElementState) (data : ValenceElementData) :
    Except ChemError (ValenceElement × ValenceElementState) :=
  let new_index := s.registry.length
  let inst := ValenceElement.init new_index data
  if (lookupKey inst.symbol s.symbol_dictionary).isSome then
    .error .keyConflict
  else if (lookupKey inst.composition s.composition_dictionary).isSome then
    .error .keyConflict
  else
    .ok (inst,
      ⟨s.registry ++ [inst],
        (inst.symbol, new_index) :: s.symbol_dictionary,
        ((inst.element, inst.valence), new_index) :: s.composition_dictionary⟩)

/-- The registry state after a creation attempt: a raised exception leaves
the class state untouched. -/
def ValenceElement.run_create (s : ValenceElementState) (data : ValenceElementData) :
    ValenceElementState :=
  match ValenceElement.create s data with
  | .ok (_, s') => s'
  | .error _ => s

/-- A sequence of creation attempts, as `ValenceElement.extend_data`
performs. -/
def ValenceElement.run_creates (s : ValenceElementState) (ds : List ValenceElementData) :
    ValenceElementState :=
  ds.foldl ValenceElement.run_create s

/-- The integer-identifier branch of `ValenceElement.__new__`. -/
def ValenceElementState.get_by_index (s : ValenceElementState) (i : Nat) :
    Except ChemError ValenceElement :=
  match s.registry[i]? with
  | some e => .ok e
  | none => .error .indexOutOfRange

/-- The string-identifier branch of `ValenceElement.__new__`. -/
def ValenceElementState.get_by_key (s : ValenceElementState) (k : String) :
    Except ChemError ValenceElement :=
  match lookupKey k s.symbol_dictionary with
  | some i =>
    match s.registry[i]? with
    | some e => .ok e
    | none => .error .indexOutOfRange
  | none => .error .unknownKey

/-- The tuple-identifier branch of `ValenceElement.__new__`: look the
`(element, valence)` pair up in `composition_dictionary`. -/
def ValenceElementState.get_by_composition (s : ValenceElementState) (k : Element × Int) :
    Except ChemError ValenceElement :=
  match lookupKey k s.composition_dictionary with
  | some i =>
    match s.registry[i]? with
    | some e => .ok e
    | none => .error .indexOutOfRange
  | none => .error .unknownKey

/-! ## AtomicGroup (`src/atomic_group.py`)

A composition entry of `AtomicGroupData.elements` is, at runtime, either a
bare object or a `(object, count)` tuple.  The `isinstance` dispatch in the
derivation routines distinguishes `Element`, `ValenceElement`, and
"anything else" (which raises `ValueError("基团元素数据错误")`).  The
"anything else" case matters: an `AtomicGroup` instance appearing as a
component of another group is neither an `Element`, nor a `ValenceElement`,
nor a tuple, so it falls through to the raising branch.  `CompItem.groupRef`
models such a nested registered group by the attributes it would carry (its
resolved-or-indeterminate valence and its base symbol). -/

/-- An object sitting in a composition slot: an `Element`, a
`ValenceElement`, or a nested `AtomicGroup` reference (anything that is not
one of the first two isinstance cases). -/
inductive CompItem
  | elem (e : Element)
  | velem (v : ValenceElement)
  | groupRef (valence : Option Int) (symbol_without_valence : String)
deriving DecidableEq, Repr

/-- A composition entry: a bare object or an `(object, count)` tuple. -/
inductive Component
  | bare (item : CompItem)
  | pair (item : CompItem) (count : Int)
deriving DecidableEq, Repr

/-- The `AtomicGroupData` frozen dataclass.  `valence` is
`int | None = None`: absent means "derive from the composition", a present
integer is a direct override. -/
structure AtomicGroupData where
  elements : List Component
  valence : Option Int := none
  name : Option String := none
  symbol_without_valence : Option String := none
  symbol : Option String := none
deriving DecidableEq, Repr

/-- The accumulator loop of `AtomicGroup.generate_valence`: a bare
`Element` (directly or inside a tuple) returns `None` immediately; a
`ValenceElement` adds `valence * count`; anything else raises. -/
def AtomicGroup.valence_loop (acc : Int) : List Component → Except ChemError (Option Int)
  | [] => .ok (some acc)
  | c :: rest =>
    match c with
    | .bare (.elem _) => .ok none
    | .bare (.velem v) => AtomicGroup.valence_loop (acc + v.valence) rest
    | .bare (.groupRef _ _) => .error .invalidComposition
    | .pair (.elem _) _ => .ok none
    | .pair (.velem v) count => AtomicGroup.valence_loop (acc + v.valence * count) rest
    | .pair (.groupRef _ _) _ => .error .invalidComposition

/-- `AtomicGroup.generate_valence`: the explicit `data.valence` override if
present, otherwise the accumulator loop over the composition starting at
0. -/
def AtomicGroup.generate_valence (dataValence : Option Int) (elements : List Component) :
    Except ChemError (Option Int) :=
  match dataValence with
  | some v => .ok (some v)
  | none => AtomicGroup.valence_loop 0 elements

/-- The contribution one composition entry makes to the base symbol: the
component's element symbol, followed by the count when it exceeds 1. -/
def AtomicGroup.symbol_piece : Component → Except ChemError String
  | .bare (.elem e) => .ok e.symbol
  | .bare (.velem v) => .ok v.element.symbol
  | .bare (.groupRef _ _) => .error .invalidComposition
  | .pair (.elem e) count => .ok (e.symbol ++ if count > 1 then toString count else "")
  | .pair (.velem v) count => .ok (v.element.symbol ++ if count > 1 then toString count else "")
  | .pair (.groupRef _ _) _ => .error .invalidComposition

/-- The concatenation loop of `AtomicGroup.generate_symbol_without_valence`. -/
def AtomicGroup.symbol_loop : List Component → Except ChemError String
  | [] => .ok ""
  | c :: rest => do
    let piece ← AtomicGroup.symbol_piece c
    let tail ← AtomicGroup.symbol_loop rest
    pure (piece ++ tail)

/-- `AtomicGroup.generate_symbol_without_valence`: the truthy override if
supplied, otherwise the concatenation of the per-entry pieces. -/
def AtomicGroup.generate_symbol_without_valence (override : Option String)
    (elements : List Component) : Except ChemError String :=
  match strTruthy override with
  | some s => .ok s
  | none => AtomicGroup.symbol_loop elements

/-- `AtomicGroup.generate_symbol`: the truthy override if supplied; else
`f"{self.symbol_without_valence}({self.valence:+})"` when the valence is
resolved, and the bare `symbol_without_valence` when it is not. -/
def AtomicGroup.generate_symbol (override : Option String) (valence : Option Int)
    (symbol_without_valence : String) : String :=
  match strTruthy override with
  | some s => s
  | none =>
    match valence with
    | some v => symbol_without_valence ++ "(" ++ fmtSigned v ++ ")"
    | none => symbol_without_valence

/-- A registered `AtomicGroup` instance with the attributes `_init` sets. -/
structure AtomicGroup where
  index : Nat
  data : AtomicGroupData
  composition : List Component
  valence : Option Int
  symbol_without_valence : String
  symbol : String
deriving DecidableEq, Repr

/-- The class-level state of the `AtomicGroup` registry: `registry`,
`symbol_dictionary` and `composition_dictionary` (the latter keyed by raw
composition tuples). -/
structure AtomicGroupState where
  registry : List AtomicGroup := []
  symbol_dictionary : List (String × Nat) := []
  composition_dictionary : List (List Component × Nat) := []
deriving DecidableEq, Repr

/-- The empty `AtomicGroup` registry state. -/
def atomicGroupEmpty : AtomicGroupState := {}

/-- The creation path of `AtomicGroup.__new__`: allocate the next index,
run `_init` (deriving valence, base symbol, display symbol — any of which
may raise), raise on a symbol conflict, then append the instance and record
its symbol key.  Nothing is ever inserted into `composition_dictionary`. -/
def AtomicGroup.create (s : AtomicGroupState) (data : AtomicGroupData) :
    Except ChemError (AtomicGroup × AtomicGroupState) := do
  let new_index := s.registry.length
  let v ← AtomicGroup.generate_valence data.valence data.elements
  let swv ← AtomicGroup.generate_symbol_without_valence data.symbol_without_valence data.elements
  let sym := AtomicGroup.generate_symbol data.symbol v swv
  let inst : AtomicGroup := ⟨new_index, data, data.elements, v, swv, sym⟩
  if (lookupKey inst.symbol s.symbol_dictionary).isSome then
    .error .keyConflict
  else
    .ok (inst,
      ⟨s.registry ++ [inst],
        (inst.symbol, new_index) :: s.symbol_dictionary,
        s.composition_dictionary⟩)

/-- The registry state after a creation attempt: a raised exception leaves
the class state untouched. -/
def AtomicGroup.run_create (s : AtomicGroupState) (data : AtomicGroupData) :
    AtomicGroupState :=
  match AtomicGroup.create s data with
  | .ok (_, s') => s'
  | .error _ => s

/-- A sequence of creation attempts, as `AtomicGroup.extend_data`
performs. -/
def AtomicGroup.run_creates (s : AtomicGroupState) (ds : List AtomicGroupData) :
    AtomicGroupState :=
  ds.foldl AtomicGroup.run_create s

/-- The integer-identifier branch of `AtomicGroup.__new__`. -/
def AtomicGroupState.get_by_index (s : AtomicGroupState) (i : Nat) :
    Except ChemError AtomicGroup :=
  match s.registry[i]? with
  | some e => .ok e
  | none => .error .indexOutOfRange

/-- The string-identifier branch of `AtomicGroup.__new__`. -/
def AtomicGroupState.get_by_key (s : AtomicGroupState) (k : String) :
    Except ChemError AtomicGroup :=
  match lookupKey k s.symbol_dictionary with
  | some i =>
    match s.registry[i]? with
    | some e => .ok e
    | none => .error .indexOutOfRange
  | none => .error .unknownKey

/-- The tuple-identifier branch of `AtomicGroup.__new__`: look the raw
composition tuple up in `composition_dictionary`. -/
def AtomicGroupState.get_by_composition (s : AtomicGroupState) (k : List Component) :
    Except ChemError AtomicGroup :=
  match lookupKey k s.composition_dictionary with
  | some i =>
    match s.registry[i]? with
    | some e => .ok e
    | none => .error .indexOutOfRange
  | none => .error .unknownKey

/-! ## Spec-side descriptions and sample entities

The predicates and the `valenceSum` function below follow the wording of
the specification ("components with valences `v1..vn` and multiplicities
`m1..mn` … valence `Σ(vi*mi)`", a bare component counting with
multiplicity 1); they are compared against the derivation functions
embedded from the source.  The sample entities mirror the objects built in
`src/demo.py` and the `__main__` blocks. -/

/-- A composition entry that is a `ValenceElement`, bare or paired with a
multiplicity. -/
def isValenceComponent : Component → Bool
  | .bare (.velem _) => true
  | .pair (.velem _) _ => true
  | _ => false

/-- A composition entry that is an `Element` or a `ValenceElement` (the
shapes the source's type alias `AtomicGroupElementsType` admits). -/
def isElemOrVElem : Component → Bool
  | .bare (.groupRef _ _) => false
  | .pair (.groupRef _ _) _ => false
  | _ => true

/-- A composition entry that is a bare `Element`, directly or inside a
`(component, count)` tuple. -/
def isBareElement : Component → Bool
  | .bare (.elem _) => true
  | .pair (.elem _) _ => true
  | _ => false

/-- Spec-side contribution of one entry to `Σ(vi*mi)`: a bare
`ValenceElement` counts with multiplicity 1, a paired one with its
multiplicity. -/
def valenceContrib : Component → Int
  | .bare (.velem v) => v.valence
  | .pair (.velem v) m => v.valence * m
  | _ => 0

/-- Spec-side `Σ(vi*mi)` over a composition. -/
def valenceSum (l : List Component) : Int := (l.map valenceContrib).sum

/-- Carbon, as registered first in `src/demo.py`-style setup. -/
def eC : Element := ⟨0, ⟨some "C", none, none⟩, "C"⟩

/-- Oxygen. -/
def eO : Element := ⟨1, ⟨some "O", none, none⟩, "O"⟩

/-- Hydrogen. -/
def eH : Element := ⟨2, ⟨some "H", none, none⟩, "H"⟩

/-- Iron. -/
def eFe : Element := ⟨3, ⟨some "Fe", none, none⟩, "Fe"⟩

/-- Carbon at oxidation state +4. -/
def vC : ValenceElement := ValenceElement.init 0 ⟨eC, 4, none, none⟩

/-- Oxygen at oxidation state -2. -/
def vO : ValenceElement := ValenceElement.init 1 ⟨eO, -2, none, none⟩

/-- The carbonate composition of `src/demo.py`: `((C(+4), 1), (O(-2), 3))`. -/
def co3Data : AtomicGroupData :=
  ⟨[.pair (.velem vC) 1, .pair (.velem vO) 3], none, none, none, none⟩

/-- The carbonate composition with bare (valence-free) elements instead of
valence elements: `(C, (O, 3))`. -/
def co3ElemData : AtomicGroupData :=
  ⟨[.bare (.elem eC), .pair (.elem eO) 3], none, none, none, none⟩

/-- The group `co3Data` resolves to on an empty registry. -/
def co3Group : AtomicGroup :=
  ⟨0, co3Data, co3Data.elements, some (-2), "CO3", "CO3(-2)"⟩

/-- The registry state after creating `co3Group` on an empty registry. -/
def co3State : AtomicGroupState :=
  ⟨[co3Group], [("CO3(-2)", 0)], []⟩

/-- A composition pair with multiplicity 0: `((O(-2), 0),)`. -/
def multZeroData : AtomicGroupData :=
  ⟨[.pair (.velem vO) 0], none, none, none, none⟩

/-- An `Element` registry holding oxygen, for concrete conflict and lookup
scenarios. -/
def sampleElementState : ElementState :=
  Element.run_create elementEmpty ⟨some "O", none, none⟩

/-- A `ValenceElement` registry holding `Fe(+2)`. -/
def sampleVEState : ValenceElementState :=
  ValenceElement.run_create valenceElementEmpty ⟨eFe, 2, none, none⟩

/-- An `AtomicGroup` registry holding the carbonate group. -/
def sampleAGState : AtomicGroupState :=
  AtomicGroup.run_create atomicGroupEmpty co3Data

/-- The oxygen entity `sampleElementState` holds. -/
def oElem : Element := ⟨0, ⟨some "O", none, none⟩, "O"⟩

/-- The `Fe(+2)` entity `sampleVEState` holds. -/
def feVE : ValenceElement := ValenceElement.init 0 ⟨eFe, 2, none, none⟩

/-! ## Lookup-tracking invariants

`tracks` records that a registry state still resolves an entity's index and
keys to the entity itself; the preservation lemmas below show every later
creation attempt keeps it. -/

/-- An `Element` registry state resolves `e`'s symbol and index to `e`. -/
def ElementState.tracks (t : ElementState) (e : Element) : Prop :=
  lookupKey e.symbol t.symbol_dictionary = some e.index ∧ t.registry[e.index]? = some e

/-- A `ValenceElement` registry state resolves `e`'s symbol, composition
pair and index to `e`. -/
def ValenceElementState.tracks (t : ValenceElementState) (e : ValenceElement) : Prop :=
  lookupKey e.symbol t.symbol_dictionary = some e.index
    ∧ lookupKey e.composition t.composition_dictionary = some e.index
    ∧ t.registry[e.index]? = some e

/-- An `AtomicGroup` registry state resolves `e`'s symbol and index to
`e`. -/
def AtomicGroupState.tracks (t : AtomicGroupState) (e : AtomicGroup) : Prop :=
  lookupKey e.symbol t.symbol_dictionary = some e.index ∧ t.registry[e.index]? = some e

/-! ## Helper lemmas -/

/-- On a composition made only of `ValenceElement` entries the accumulator
loop returns the accumulator plus `Σ(vi*mi)`. -/
theorem valence_loop_eq_sum (l : List Component)
    (h : ∀ c ∈ l, isValenceComponent c = true) (acc : Int) :
    AtomicGroup.valence_loop acc l = .ok (some (acc + valenceSum l)) := by
  induction l generalizing acc with
  | nil => simp [AtomicGroup.valence_loop, valenceSum]
  | cons c rest ih =>
    have hc := h c (by simp)
    have hrest : ∀ x ∈ rest, isValenceComponent x = true := fun x hx => h x (by simp [hx])
    cases c with
    | bare item =>
      cases item with
      | elem e => simp [isValenceComponent] at hc
      | velem v =>
        simp only [AtomicGroup.valence_loop, ih hrest, valenceSum, valenceContrib,
          List.map_cons, List.sum_cons]
        ring_nf
      | groupRef gv gs => simp [isValenceComponent] at hc
    | pair item m =>
      cases item with
      | elem e => simp [isValenceComponent] at hc
      | velem v =>
        simp only [AtomicGroup.valence_loop, ih hrest, valenceSum, valenceContrib,
          List.map_cons, List.sum_cons]
        ring_nf
      | groupRef gv gs => simp [isValenceComponent] at hc

/-- On a composition of `Element`/`ValenceElement` entries containing at
least one bare `Element`, the accumulator loop returns indeterminate. -/
theorem valence_loop_elem_none (l : List Component)
    (hall : ∀ c ∈ l, isElemOrVElem c = true)
    (hex : ∃ c ∈ l, isBareElement c = true) (acc : Int) :
    AtomicGroup.valence_loop acc l = .ok none := by
  induction l generalizing acc with
  | nil => simp at hex
  | cons c rest ih =>
    have hc := hall c (by simp)
    have hrest : ∀ x ∈ rest, isElemOrVElem x = true := fun x hx => hall x (by simp [hx])
    cases c with
    | bare item =>
      cases item with
      | elem e => simp [AtomicGroup.valence_loop]
      | velem v =>
        have hex' : ∃ x ∈ rest, isBareElement x = true := by
          rcases hex with ⟨x, hx, hxe⟩
          rcases List.mem_cons.mp hx with h1 | h1
          · subst h1; simp [isBareElement] at hxe
          · exact ⟨x, h1, hxe⟩
        simp [AtomicGroup.valence_loop, ih hrest hex']
      | groupRef gv gs => simp [isElemOrVElem] at hc
    | pair item m =>
      cases item with
      | elem e => simp [AtomicGroup.valence_loop]
      | velem v =>
        have hex' : ∃ x ∈ rest, isBareElement x = true := by
          rcases hex with ⟨x, hx, hxe⟩
          rcases List.mem_cons.mp hx with h1 | h1
          · subst h1; simp [isBareElement] at hxe
          · exact ⟨x, h1, hxe⟩
        simp [AtomicGroup.valence_loop, ih hrest hex']
      | groupRef gv gs => simp [isElemOrVElem] at hc

/-! ## Claims -/

/-- Claim C1: an `AtomicGroup` created without a valence override whose
composition consists only of `ValenceElement` entries with valences
`v1..vn` and multiplicities `m1..mn` (a bare entry counting with
multiplicity 1) derives the valence `Σ(vi*mi)`. -/
theorem C1_valence_additivity (l : List Component)
    (h : ∀ c ∈ l, isValenceComponent c = true) :
    AtomicGroup.generate_valence none l = .ok (some (valenceSum l)) := by
  simpa [AtomicGroup.generate_valence] using valence_loop_eq_sum l h 0

/-- Claim C1 witness: the carbonate composition `((C(+4), 1), (O(-2), 3))`
derives valence `4*1 + (-2)*3 = -2`. -/
theorem C1_valence_additivity_witness :
    AtomicGroup.generate_valence none co3Data.elements = .ok (some (valenceSum co3Data.elements))
      ∧ valenceSum co3Data.elements = -2 :=
  ⟨C1_valence_additivity co3Data.elements (by decide), by decide⟩

/-- Claim C2 counterexample: a composition whose only entry is a nested
group with resolved valence `-1` and multiplicity `2` does not contribute
`-1 * 2 = -2` to the sum — `generate_valence` rejects it with the
malformed-composition error instead. -/
theorem C2_counterexample :
    AtomicGroup.generate_valence none [Component.pair (CompItem.groupRef (some (-1)) "OH") 2]
        = Except.error ChemError.invalidComposition
      ∧ AtomicGroup.generate_valence none [Component.pair (CompItem.groupRef (some (-1)) "OH") 2]
        ≠ Except.ok (some (-2)) := by
  constructor
  · rfl
  · decide

/-- Claim C2 amended: over compositions of `Element` and `ValenceElement`
entries, any bare `Element` (directly or inside a pair) makes the derived
valence indeterminate regardless of other entries; a nested `AtomicGroup`
entry, resolved or not, bare or paired, is not supported: it aborts valence
derivation with the malformed-composition error instead of contributing
`valence * multiplicity`. -/
theorem C2_indeterminate_and_nested :
    (∀ l, (∀ c ∈ l, isElemOrVElem c = true) → (∃ c ∈ l, isBareElement c = true) →
      AtomicGroup.generate_valence none l = .ok none)
    ∧ (∀ gv gs l,
      AtomicGroup.generate_valence none (Component.bare (CompItem.groupRef gv gs) :: l)
        = .error .invalidComposition)
    ∧ (∀ gv gs m l,
      AtomicGroup.generate_valence none (Component.pair (CompItem.groupRef gv gs) m :: l)
        = .error .invalidComposition) := by
  refine ⟨?_, ?_, ?_⟩
  · intro l hall hex
    simpa [AtomicGroup.generate_valence] using valence_loop_elem_none l hall hex 0
  · intro gv gs l
    simp [AtomicGroup.generate_valence, AtomicGroup.valence_loop]
  · intro gv gs m l
    simp [AtomicGroup.generate_valence, AtomicGroup.valence_loop]

/-- Claim C2 witness: a hydrogen atom next to `O(-2)` makes the valence
indeterminate, and a nested group aborts derivation, at concrete inputs. -/
theorem C2_indeterminate_and_nested_witness :
    AtomicGroup.generate_valence none [Component.bare (CompItem.velem vO), Component.bare (CompItem.elem eH)]
        = .ok none
      ∧ AtomicGroup.generate_valence none [Component.bare (CompItem.groupRef (some 1) "NH4")]
        = .error .invalidComposition
      ∧ AtomicGroup.generate_valence none [Component.pair (CompItem.groupRef none "OH") 2]
        = .error .invalidComposition :=
  ⟨C2_indeterminate_and_nested.1 _ (by decide) (by decide),
    C2_indeterminate_and_nested.2.1 (some 1) "NH4" [],
    C2_indeterminate_and_nested.2.2 none "OH" 2 []⟩

/-- Claim C5 counterexample (negation of the claim): no value of the
`AtomicGroupData.valence` field other than absence forces the derived
valence to indeterminate on every composition — any present value is a
direct override that resolves. -/
theorem C5_counterexample :
    ¬ ∃ v : Option Int, v ≠ none ∧
        ∀ l, AtomicGroup.generate_valence v l = .ok none := by
  rintro ⟨v, hv, hall⟩
  cases v with
  | none => exact hv rfl
  | some k =>
    have h := hall []
    simp [AtomicGroup.generate_valence] at h

/-- Claim C5 assessed against the source: the `valence` field of
`AtomicGroupData` is an optional integer only — absence means "derive from
the composition" and any present integer is a direct override yielding that
resolved valence; indeterminate valence can only arise when the field is
absent.  There is no explicit "no valence" sentinel. -/
theorem C5_no_sentinel :
    (∀ k l, AtomicGroup.generate_valence (some k) l = .ok (some k))
    ∧ (∀ dv l, AtomicGroup.generate_valence dv l = .ok none → dv = none) := by
  constructor
  · intro k l
    rfl
  · intro dv l h
    cases dv with
    | none => rfl
    | some k => simp [AtomicGroup.generate_valence] at h

/-- Claim C5 witness: a supplied valence `5` overrides even a composition
with a bare element; indeterminacy at a concrete composition implies the
field was absent. -/
theorem C5_no_sentinel_witness :
    AtomicGroup.generate_valence (some 5) [Component.bare (CompItem.elem eH)] = .ok (some 5)
      ∧ (none : Option Int) = none :=
  ⟨C5_no_sentinel.1 5 [Component.bare (CompItem.elem eH)],
    C5_no_sentinel.2 none [Component.bare (CompItem.elem eH)] (by decide)⟩

/-- Claim C3 counterexample: creating the carbonate group derives the
display symbol `CO3(-2)` — not `-CO3(-2)` — and the bare-element variant
with indeterminate valence derives `CO3`, not `-CO3`: no leading marker is
ever produced. -/
theorem C3_counterexample :
    (∃ g s', AtomicGroup.create atomicGroupEmpty co3Data = .ok (g, s')
      ∧ g.valence = some (-2) ∧ g.symbol_without_valence = "CO3"
      ∧ g.symbol = "CO3(-2)" ∧ g.symbol ≠ "-CO3(-2)")
    ∧ (∃ g s', AtomicGroup.create atomicGroupEmpty co3ElemData = .ok (g, s')
      ∧ g.valence = none ∧ g.symbol = "CO3" ∧ g.symbol ≠ "-CO3") := by
  constructor
  · exact ⟨_, _, rfl, by decide, by decide, by decide, by decide⟩
  · exact ⟨_, _, rfl, by decide, by decide, by decide⟩

/-- Claim C3 amended: for an `AtomicGroup` created without a display-symbol
override, the display symbol carries no leading marker: with indeterminate
valence it is the base symbol itself, and with resolved valence `v` it is
`{base_symbol}({v with explicit sign})` — e.g. base symbol `CO3` with
valence `-2` yields `CO3(-2)`. -/
theorem C3_display_symbol (s : AtomicGroupState) (d : AtomicGroupData) (g : AtomicGroup)
    (s' : AtomicGroupState) (hover : strTruthy d.symbol = none)
    (h : AtomicGroup.create s d = .ok (g, s')) :
    (g.valence = none → g.symbol = g.symbol_without_valence)
    ∧ ∀ v, g.valence = some v →
        g.symbol = g.symbol_without_valence ++ "(" ++ fmtSigned v ++ ")" := by
  unfold AtomicGroup.create at h
  cases hv : AtomicGroup.generate_valence d.valence d.elements with
  | error e => rw [hv] at h; simp [Bind.bind, Except.bind] at h
  | ok v =>
    rw [hv] at h
    cases hs : AtomicGroup.generate_symbol_without_valence d.symbol_without_valence d.elements with
    | error e => rw [hs] at h; simp [Bind.bind, Except.bind] at h
    | ok swv =>
      rw [hs] at h
      simp only [Bind.bind, Except.bind, pure, Except.pure] at h
      split at h
      · simp at h
      · rw [Except.ok.injEq, Prod.mk.injEq] at h
        obtain ⟨hg, -⟩ := h
        subst hg
        constructor
        · intro hnone
          simp only [AtomicGroup.generate_symbol, hover]
          simp at hnone
          rw [hnone]
        · intro w hw
          simp only [AtomicGroup.generate_symbol, hover]
          simp at hw
          rw [hw]

/-- Claim C3 amended witness: the carbonate creation at the empty registry,
with resolved valence `-2`, yields the display symbol
`CO3` ++ `(` ++ `-2` ++ `)`. -/
theorem C3_display_symbol_witness :
    co3Group.symbol = co3Group.symbol_without_valence ++ "(" ++ fmtSigned (-2) ++ ")" :=
  (C3_display_symbol atomicGroupEmpty co3Data co3Group co3State (by decide) (by decide)).2
    (-2) (by decide)

/-- Claim C4 counterexample: a composition pair with multiplicity 0 is
accepted — creation succeeds, the registry grows, and no
malformed-composition error is raised. -/
theorem C4_counterexample :
    ∃ g s', AtomicGroup.create atomicGroupEmpty multZeroData = .ok (g, s')
      ∧ AtomicGroup.create atomicGroupEmpty multZeroData
          ≠ .error ChemError.invalidComposition
      ∧ s'.registry.length = 1 := by
  exact ⟨_, _, rfl, by decide, rfl⟩

/-- Claim C4 amended: multiplicities are not validated.  A creation whose
composition is a single `ValenceElement` pair with multiplicity `m ≤ 0`
succeeds on the empty registry: the pair contributes `valence * m` to the
derived valence, the multiplicity is left out of the base symbol (only
counts above 1 are appended), and the group is registered. -/
theorem C4_multiplicity_not_validated (ve : ValenceElement) (m : Int) (hm : m ≤ 0) :
    ∃ g s', AtomicGroup.create atomicGroupEmpty
        ⟨[Component.pair (CompItem.velem ve) m], none, none, none, none⟩ = .ok (g, s')
      ∧ g.valence = some (ve.valence * m)
      ∧ g.symbol_without_valence = ve.element.symbol
      ∧ s'.registry.length = 1 := by
  have h1 : ¬ (m > 1) := by omega
  simp only [AtomicGroup.create, AtomicGroup.generate_valence, AtomicGroup.valence_loop,
    AtomicGroup.generate_symbol_without_valence, AtomicGroup.symbol_loop,
    AtomicGroup.symbol_piece, strTruthy, atomicGroupEmpty, lookupKey, h1, if_false,
    Bind.bind, Except.bind, pure, Except.pure, zero_add, Option.isSome_none,
    Bool.false_eq_true, ite_false]
  exact ⟨_, _, rfl, by simp, by simp, by simp⟩

/-- Claim C4 amended witness: the multiplicity-0 pair `((O(-2), 0),)` is
created with valence `-2 * 0 = 0` and base symbol `O`. -/
theorem C4_multiplicity_not_validated_witness :
    (0 : Int) ≤ 0
      ∧ ∃ g s', AtomicGroup.create atomicGroupEmpty
          ⟨[Component.pair (CompItem.velem vO) 0], none, none, none, none⟩ = .ok (g, s')
        ∧ g.valence = some (vO.valence * 0)
        ∧ g.symbol_without_valence = vO.element.symbol
        ∧ s'.registry.length = 1 :=
  ⟨le_refl 0, C4_multiplicity_not_validated vO 0 (le_refl 0)⟩

/-- A decimal digit character evaluates back to its digit. -/
theorem digitVal_digitChar10 (d : Nat) (h : d < 10) : digitVal (digitChar10 d) = d := by
  interval_cases d <;> decide

/-- Appending one digit multiplies the value by 10 and adds the digit. -/
theorem valueOfDigits_append (l : List Char) (c : Char) :
    valueOfDigits (l ++ [c]) = 10 * valueOfDigits l + digitVal c := by
  simp [valueOfDigits, List.foldl_append]

/-- With enough fuel the decimal rendering evaluates back to the number. -/
theorem valueOfDigits_core (fuel : Nat) : ∀ n : Nat, n < fuel →
    valueOfDigits (decimalDigitsCore fuel n) = n := by
  induction fuel with
  | zero => intro n hn; omega
  | succ fuel ih =>
    intro n hn
    rw [decimalDigitsCore]
    by_cases h10 : n < 10
    · rw [if_pos h10]
      simp [valueOfDigits, digitVal_digitChar10 n h10]
    · rw [if_neg h10, valueOfDigits_append, ih (n / 10) (by omega),
        digitVal_digitChar10 _ (by omega)]
      omega

/-- Decimal renderings of distinct naturals are distinct strings. -/
theorem decimalRepr_inj (a b : Nat) (h : decimalRepr a = decimalRepr b) : a = b := by
  have hd : decimalDigits a = decimalDigits b := congrArg String.data h
  have ha : valueOfDigits (decimalDigits a) = a := valueOfDigits_core (a + 1) a (by omega)
  have hb : valueOfDigits (decimalDigits b) = b := valueOfDigits_core (b + 1) b (by omega)
  rw [← ha, ← hb, hd]

/-- The synthetic element placeholder determines the index it embeds. -/
theorem element_placeholder_inj (i j : Nat)
    (h : "<Element " ++ decimalRepr i ++ ">" = "<Element " ++ decimalRepr j ++ ">") :
    i = j := by
  apply decimalRepr_inj
  have hd := congrArg String.data h
  simp only [String.data_append, List.append_assoc] at hd
  have h1 := List.append_cancel_left hd
  have h2 := List.append_cancel_right h1
  exact String.ext h2

/-- Claim C9 counterexample: the placeholder generated for an anonymous
element at index 0 is `<Element 0>` (a space separates the word and the
index), not `<Element#0>`. -/
theorem C9_counterexample :
    Element.generate_symbol 0 ⟨none, none, none⟩ = "<Element 0>"
      ∧ Element.generate_symbol 0 ⟨none, none, none⟩ ≠ "<Element#0>" := by
  decide

/-- Claim C9 amended: an `Element` created with an absent symbol derives
the synthetic placeholder `<Element N>` embedding its registry index `N`
(space-separated, no `#`), and any two anonymous elements at distinct
indices therefore receive distinct symbols and never collide in the
registry key map. -/
theorem C9_anonymous_placeholder :
    (∀ i (d : ElementData), d.symbol = none →
      Element.generate_symbol i d = "<Element " ++ decimalRepr i ++ ">")
    ∧ (∀ i j (di dj : ElementData), di.symbol = none → dj.symbol = none → i ≠ j →
      Element.generate_symbol i di ≠ Element.generate_symbol j dj) := by
  have base : ∀ i (d : ElementData), d.symbol = none →
      Element.generate_symbol i d = "<Element " ++ decimalRepr i ++ ">" := by
    intro i d hd
    simp [Element.generate_symbol, strTruthy, hd]
  refine ⟨base, ?_⟩
  intro i j di dj hdi hdj hij hcontra
  rw [base i di hdi, base j dj hdj] at hcontra
  exact hij (element_placeholder_inj i j hcontra)

/-- Claim C9 amended witness: indices 0 and 1 give the placeholders
`<Element 0>` and `<Element 1>`, which differ. -/
theorem C9_anonymous_placeholder_witness :
    Element.generate_symbol 0 ⟨none, none, none⟩ = "<Element " ++ decimalRepr 0 ++ ">"
      ∧ Element.generate_symbol 0 ⟨none, none, none⟩
          ≠ Element.generate_symbol 1 ⟨none, none, none⟩ :=
  ⟨C9_anonymous_placeholder.1 0 ⟨none, none, none⟩ rfl,
    C9_anonymous_placeholder.2 0 1 ⟨none, none, none⟩ ⟨none, none, none⟩ rfl rfl
      (by decide)⟩

/-- A successful creation copies `composition_dictionary` unchanged. -/
theorem create_ok_comp_dict (s : AtomicGroupState) (d : AtomicGroupData) (g : AtomicGroup)
    (s' : AtomicGroupState) (h : AtomicGroup.create s d = .ok (g, s')) :
    s'.composition_dictionary = s.composition_dictionary := by
  unfold AtomicGroup.create at h
  cases hv : AtomicGroup.generate_valence d.valence d.elements with
  | error e => rw [hv] at h; simp [Bind.bind, Except.bind] at h
  | ok v =>
    rw [hv] at h
    cases hs : AtomicGroup.generate_symbol_without_valence d.symbol_without_valence d.elements with
    | error e => rw [hs] at h; simp [Bind.bind, Except.bind] at h
    | ok swv =>
      rw [hs] at h
      simp only [Bind.bind, Except.bind, pure, Except.pure] at h
      split at h
      · simp at h
      · rw [Except.ok.injEq, Prod.mk.injEq] at h
        obtain ⟨-, hs'⟩ := h
        subst hs'
        rfl

/-- A creation attempt never touches `composition_dictionary`. -/
theorem run_create_comp_dict (s : AtomicGroupState) (d : AtomicGroupData) :
    (AtomicGroup.run_create s d).composition_dictionary = s.composition_dictionary := by
  cases h : AtomicGroup.create s d with
  | error e => simp [AtomicGroup.run_create, h]
  | ok p =>
    obtain ⟨g, s'⟩ := p
    have hc := create_ok_comp_dict s d g s' h
    simp [AtomicGroup.run_create, h, hc]

/-- Claim C10: from an empty registry, no sequence of `AtomicGroup`
creation attempts ever makes a composition-tuple lookup succeed — creation
records the symbol key only, so looking any composition tuple up raises the
unknown-key error. -/
theorem C10_no_composition_lookup (ds : List AtomicGroupData) (t : List Component) :
    (AtomicGroup.run_creates atomicGroupEmpty ds).get_by_composition t
      = .error ChemError.unknownKey := by
  have hdict : ∀ s : AtomicGroupState, s.composition_dictionary = [] →
      (AtomicGroup.run_creates s ds).composition_dictionary = [] := by
    induction ds with
    | nil => intro s hs; exact hs
    | cons d rest ih =>
      intro s hs
      have hstep : (AtomicGroup.run_create s d).composition_dictionary = [] := by
        rw [run_create_comp_dict]; exact hs
      rw [AtomicGroup.run_creates, List.foldl_cons]
      exact ih (AtomicGroup.run_create s d) hstep
  have h := hdict atomicGroupEmpty rfl
  unfold AtomicGroupState.get_by_composition
  rw [h]
  rfl

/-- Claim C6: in each of the three registries, creating an entity whose
derived symbol is already a registered key fails with the key-conflict
error, and the failed attempt leaves the registry state (entity list and
all key maps) unchanged — the candidate is never appended.  For
`AtomicGroup` the hypothesis also fixes the successfully derived valence
and base symbol, since a derived symbol only exists when derivation
succeeded. -/
theorem C6_symbol_conflict_rejected :
    (∀ (s : ElementState) (d : ElementData) (i : Nat),
      lookupKey (Element.generate_symbol s.registry.length d) s.symbol_dictionary = some i →
      Element.create s d = .error ChemError.keyConflict ∧ Element.run_create s d = s)
    ∧ (∀ (s : ValenceElementState) (d : ValenceElementData) (i : Nat),
      lookupKey (ValenceElement.generate_symbol d) s.symbol_dictionary = some i →
      ValenceElement.create s d = .error ChemError.keyConflict
        ∧ ValenceElement.run_create s d = s)
    ∧ (∀ (s : AtomicGroupState) (d : AtomicGroupData) (v : Option Int) (swv : String) (i : Nat),
      AtomicGroup.generate_valence d.valence d.elements = .ok v →
      AtomicGroup.generate_symbol_without_valence d.symbol_without_valence d.elements = .ok swv →
      lookupKey (AtomicGroup.generate_symbol d.symbol v swv) s.symbol_dictionary = some i →
      AtomicGroup.create s d = .error ChemError.keyConflict
        ∧ AtomicGroup.run_create s d = s) := by
  refine ⟨?_, ?_, ?_⟩
  · intro s d i h
    have hc : Element.create s d = .error ChemError.keyConflict := by
      simp only [Element.create, h, Option.isSome_some, if_true]
    exact ⟨hc, by simp [Element.run_create, hc]⟩
  · intro s d i h
    have hc : ValenceElement.create s d = .error ChemError.keyConflict := by
      simp only [ValenceElement.create, ValenceElement.init, h, Option.isSome_some, if_true]
    exact ⟨hc, by simp [ValenceElement.run_create, hc]⟩
  · intro s d v swv i hv hs h
    have hc : AtomicGroup.create s d = .error ChemError.keyConflict := by
      unfold AtomicGroup.create
      rw [hv, hs]
      simp only [Bind.bind, Except.bind, h, Option.isSome_some, if_true]
    exact ⟨hc, by simp [AtomicGroup.run_create, hc]⟩

/-- Claim C6 witness: re-creating oxygen, `Fe(+2)` and the carbonate group
against registries already holding them fails with the key-conflict error
and leaves each registry unchanged. -/
theorem C6_symbol_conflict_rejected_witness :
    (Element.create sampleElementState ⟨some "O", none, none⟩ = .error ChemError.keyConflict
      ∧ Element.run_create sampleElementState ⟨some "O", none, none⟩ = sampleElementState)
    ∧ (ValenceElement.create sampleVEState ⟨eFe, 2, none, none⟩ = .error ChemError.keyConflict
      ∧ ValenceElement.run_create sampleVEState ⟨eFe, 2, none, none⟩ = sampleVEState)
    ∧ (AtomicGroup.create sampleAGState co3Data = .error ChemError.keyConflict
      ∧ AtomicGroup.run_create sampleAGState co3Data = sampleAGState) :=
  ⟨C6_symbol_conflict_rejected.1 sampleElementState ⟨some "O", none, none⟩ 0 (by decide),
    C6_symbol_conflict_rejected.2.1 sampleVEState ⟨eFe, 2, none, none⟩ 0 (by decide),
    C6_symbol_conflict_rejected.2.2 sampleAGState co3Data (some (-2)) "CO3" 0
      (by decide) (by decide) (by decide)⟩

/-- Claim C8: a `ValenceElement` whose `(base_element, valence)` pair is
already registered in `composition_dictionary` is rejected with the
key-conflict error — even when its derived symbol differs through an
override — and the registry state is left unchanged. -/
theorem C8_composition_pair_unique (s : ValenceElementState) (d : ValenceElementData) (i : Nat)
    (h : lookupKey (d.element, d.valence) s.composition_dictionary = some i) :
    ValenceElement.create s d = .error ChemError.keyConflict
      ∧ ValenceElement.run_create s d = s := by
  have hc : ValenceElement.create s d = .error ChemError.keyConflict := by
    unfold ValenceElement.create
    cases hsym : lookupKey (ValenceElement.generate_symbol d) s.symbol_dictionary with
    | some j => simp only [ValenceElement.init, hsym, Option.isSome_some, if_true]
    | none =>
      simp only [ValenceElement.init, hsym, Option.isSome_none, Bool.false_eq_true,
        if_false, h, Option.isSome_some, if_true]
  exact ⟨hc, by simp [ValenceElement.run_create, hc]⟩

/-- Claim C8 witness: against a registry holding `Fe(+2)`, a second iron
entity at valence `2` with the override symbol `Ferrous` is rejected and
the registry is unchanged. -/
theorem C8_composition_pair_unique_witness :
    ValenceElement.create sampleVEState ⟨eFe, 2, some "Ferrous", none⟩
        = .error ChemError.keyConflict
      ∧ ValenceElement.run_create sampleVEState ⟨eFe, 2, some "Ferrous", none⟩
        = sampleVEState :=
  C8_composition_pair_unique sampleVEState ⟨eFe, 2, some "Ferrous", none⟩ 0 (by decide)

/-- An index that resolves is inside the list. -/
theorem getElem?_some_lt {α : Type} {l : List α} {i : Nat} {a : α} (h : l[i]? = some a) :
    i < l.length := by
  by_contra hn
  rw [List.getElem?_eq_none (by omega)] at h
  exact Option.noConfusion h

/-- Lookup skips an entry with a different key. -/
theorem lookupKey_cons_ne {α β : Type} [DecidableEq α] (k k' : α) (v : β) (l : List (α × β))
    (h : k ≠ k') : lookupKey k ((k', v) :: l) = lookupKey k l := by
  simp [lookupKey, h]

/-- Characterization of a successful `Element` creation: the derived symbol
was fresh, the index is the old length, and the new state appends the
entity and conses its key. -/
theorem element_create_ok (s : ElementState) (d : ElementData) (e : Element)
    (s' : ElementState) (h : Element.create s d = .ok (e, s')) :
    lookupKey e.symbol s.symbol_dictionary = none
      ∧ e.index = s.registry.length
      ∧ s'.registry = s.registry ++ [e]
      ∧ s'.symbol_dictionary = (e.symbol, e.index) :: s.symbol_dictionary := by
  unfold Element.create at h
  dsimp only at h
  split at h
  · simp at h
  · rw [Except.ok.injEq, Prod.mk.injEq] at h
    obtain ⟨hg, hs'⟩ := h
    subst hg
    subst hs'
    rename_i hcond
    rw [Bool.not_eq_true, Option.not_isSome, Option.isNone_iff_eq_none] at hcond
    exact ⟨hcond, rfl, rfl, rfl⟩

/-- A registry state that resolves an element keeps resolving it after any
further creation attempt. -/
theorem element_run_create_tracks (t : ElementState) (d : ElementData) (e : Element)
    (h : t.tracks e) : (Element.run_create t d).tracks e := by
  obtain ⟨hk, hr⟩ := h
  cases hc : Element.create t d with
  | error err => simp only [Element.run_create, hc]; exact ⟨hk, hr⟩
  | ok p =>
    obtain ⟨e2, t2⟩ := p
    obtain ⟨hfresh, hidx, hreg, hdict⟩ := element_create_ok t d e2 t2 hc
    have hne : e.symbol ≠ e2.symbol := by
      intro heq
      rw [heq, hfresh] at hk
      exact Option.noConfusion hk
    constructor
    · simp only [Element.run_create, hc]
      rw [hdict, lookupKey_cons_ne _ _ _ _ hne]
      exact hk
    · simp only [Element.run_create, hc]
      rw [hreg, List.getElem?_append_left (getElem?_some_lt hr)]
      exact hr

/-- The tracking invariant survives any sequence of creation attempts. -/
theorem element_run_creates_tracks (ds : List ElementData) :
    ∀ (t : ElementState) (e : Element), t.tracks e → (Element.run_creates t ds).tracks e := by
  induction ds with
  | nil => intro t e h; exact h
  | cons d rest ih =>
    intro t e h
    rw [Element.run_creates, List.foldl_cons]
    exact ih _ _ (element_run_create_tracks t d e h)

/-- A tracked element is returned by both lookup operations. -/
theorem element_tracks_get (t : ElementState) (e : Element) (h : t.tracks e) :
    t.get_by_index e.index = .ok e ∧ t.get_by_key e.symbol = .ok e := by
  obtain ⟨hk, hr⟩ := h
  constructor
  · unfold ElementState.get_by_index
    rw [hr]
  · unfold ElementState.get_by_key
    rw [hk]
    dsimp only
    rw [hr]

/-- Characterization of a successful `ValenceElement` creation. -/
theorem ve_create_ok (s : ValenceElementState) (d : ValenceElementData)
    (e : ValenceElement) (s' : ValenceElementState)
    (h : ValenceElement.create s d = .ok (e, s')) :
    lookupKey e.symbol s.symbol_dictionary = none
      ∧ lookupKey e.composition s.composition_dictionary = none
      ∧ e.index = s.registry.length
      ∧ s'.registry = s.registry ++ [e]
      ∧ s'.symbol_dictionary = (e.symbol, e.index) :: s.symbol_dictionary
      ∧ s'.composition_dictionary = (e.composition, e.index) :: s.composition_dictionary := by
  unfold ValenceElement.create at h
  dsimp only at h
  split at h
  · simp at h
  · split at h
    · simp at h
    · rw [Except.ok.injEq, Prod.mk.injEq] at h
      obtain ⟨hg, hs'⟩ := h
      subst hg
      subst hs'
      rename_i hc1 hc2
      rw [Bool.not_eq_true, Option.not_isSome, Option.isNone_iff_eq_none] at hc1 hc2
      exact ⟨hc1, hc2, rfl, rfl, rfl, rfl⟩

/-- A registry state that resolves a valence element keeps resolving it
after any further creation attempt. -/
theorem ve_run_create_tracks (t : ValenceElementState) (d : ValenceElementData)
    (e : ValenceElement) (h : t.tracks e) : (ValenceElement.run_create t d).tracks e := by
  obtain ⟨hk, hcomp, hr⟩ := h
  cases hc : ValenceElement.create t d with
  | error err => simp only [ValenceElement.run_create, hc]; exact ⟨hk, hcomp, hr⟩
  | ok p =>
    obtain ⟨e2, t2⟩ := p
    obtain ⟨hfresh, hfreshc, hidx, hreg, hdict, hcdict⟩ :=
      ve_create_ok t d e2 t2 hc
    have hne : e.symbol ≠ e2.symbol := by
      intro heq
      rw [heq, hfresh] at hk
      exact Option.noConfusion hk
    have hnec : e.composition ≠ e2.composition := by
      intro heq
      rw [heq, hfreshc] at hcomp
      exact Option.noConfusion hcomp
    refine ⟨?_, ?_, ?_⟩
    · simp only [ValenceElement.run_create, hc]
      rw [hdict, lookupKey_cons_ne _ _ _ _ hne]
      exact hk
    · simp only [ValenceElement.run_create, hc]
      rw [hcdict, lookupKey_cons_ne _ _ _ _ hnec]
      exact hcomp
    · simp only [ValenceElement.run_create, hc]
      rw [hreg, List.getElem?_append_left (getElem?_some_lt hr)]
      exact hr

/-- The tracking invariant survives any sequence of creation attempts. -/
theorem ve_run_creates_tracks (ds : List ValenceElementData) :
    ∀ (t : ValenceElementState) (e : ValenceElement), t.tracks e →
      (ValenceElement.run_creates t ds).tracks e := by
  induction ds with
  | nil => intro t e h; exact h
  | cons d rest ih =>
    intro t e h
    rw [ValenceElement.run_creates, List.foldl_cons]
    exact ih _ _ (ve_run_create_tracks t d e h)

/-- A tracked valence element is returned by all three lookup operations. -/
theorem ve_tracks_get (t : ValenceElementState) (e : ValenceElement)
    (h : t.tracks e) :
    t.get_by_index e.index = .ok e ∧ t.get_by_key e.symbol = .ok e
      ∧ t.get_by_composition e.composition = .ok e := by
  obtain ⟨hk, hcomp, hr⟩ := h
  refine ⟨?_, ?_, ?_⟩
  · unfold ValenceElementState.get_by_index
    rw [hr]
  · unfold ValenceElementState.get_by_key
    rw [hk]
    dsimp only
    rw [hr]
  · unfold ValenceElementState.get_by_composition
    rw [hcomp]
    dsimp only
    rw [hr]

/-- Characterization of a successful `AtomicGroup` creation. -/
theorem ag_create_ok (s : AtomicGroupState) (d : AtomicGroupData)
    (e : AtomicGroup) (s' : AtomicGroupState)
    (h : AtomicGroup.create s d = .ok (e, s')) :
    lookupKey e.symbol s.symbol_dictionary = none
      ∧ e.index = s.registry.length
      ∧ s'.registry = s.registry ++ [e]
      ∧ s'.symbol_dictionary = (e.symbol, e.index) :: s.symbol_dictionary := by
  unfold AtomicGroup.create at h
  cases hv : AtomicGroup.generate_valence d.valence d.elements with
  | error err => rw [hv] at h; simp [Bind.bind, Except.bind] at h
  | ok v =>
    rw [hv] at h
    cases hs : AtomicGroup.generate_symbol_without_valence d.symbol_without_valence d.elements with
    | error err => rw [hs] at h; simp [Bind.bind, Except.bind] at h
    | ok swv =>
      rw [hs] at h
      simp only [Bind.bind, Except.bind, pure, Except.pure] at h
      split at h
      · simp at h
      · rw [Except.ok.injEq, Prod.mk.injEq] at h
        obtain ⟨hg, hs'⟩ := h
        subst hg
        subst hs'
        rename_i hcond
        rw [Bool.not_eq_true, Option.not_isSome, Option.isNone_iff_eq_none] at hcond
        exact ⟨hcond, rfl, rfl, rfl⟩

/-- A registry state that resolves a group keeps resolving it after any
further creation attempt. -/
theorem ag_run_create_tracks (t : AtomicGroupState) (d : AtomicGroupData)
    (e : AtomicGroup) (h : t.tracks e) : (AtomicGroup.run_create t d).tracks e := by
  obtain ⟨hk, hr⟩ := h
  cases hc : AtomicGroup.create t d with
  | error err => simp only [AtomicGroup.run_create, hc]; exact ⟨hk, hr⟩
  | ok p =>
    obtain ⟨e2, t2⟩ := p
    obtain ⟨hfresh, hidx, hreg, hdict⟩ := ag_create_ok t d e2 t2 hc
    have hne : e.symbol ≠ e2.symbol := by
      intro heq
      rw [heq, hfresh] at hk
      exact Option.noConfusion hk
    constructor
    · simp only [AtomicGroup.run_create, hc]
      rw [hdict, lookupKey_cons_ne _ _ _ _ hne]
      exact hk
    · simp only [AtomicGroup.run_create, hc]
      rw [hreg, List.getElem?_append_left (getElem?_some_lt hr)]
      exact hr

/-- The tracking invariant survives any sequence of creation attempts. -/
theorem ag_run_creates_tracks (ds : List AtomicGroupData) :
    ∀ (t : AtomicGroupState) (e : AtomicGroup), t.tracks e →
      (AtomicGroup.run_creates t ds).tracks e := by
  induction ds with
  | nil => intro t e h; exact h
  | cons d rest ih =>
    intro t e h
    rw [AtomicGroup.run_creates, List.foldl_cons]
    exact ih _ _ (ag_run_create_tracks t d e h)

/-- A tracked group is returned by both lookup operations. -/
theorem ag_tracks_get (t : AtomicGroupState) (e : AtomicGroup)
    (h : t.tracks e) :
    t.get_by_index e.index = .ok e ∧ t.get_by_key e.symbol = .ok e := by
  obtain ⟨hk, hr⟩ := h
  constructor
  · unfold AtomicGroupState.get_by_index
    rw [hr]
  · unfold AtomicGroupState.get_by_key
    rw [hk]
    dsimp only
    rw [hr]

/-- Claim C7: in each registry, an entity `e` returned by a successful
creation is resolved back exactly by every lookup for the lifetime of the
registry: after any further sequence of creation attempts,
`get_by_index e.index` returns `e` and every registered key of `e` (its
symbol; additionally the `(base_element, valence)` pair for a
`ValenceElement`) resolves to `e`. -/
theorem C7_identity_and_key_roundtrip :
    (∀ (s : ElementState) (d : ElementData) (e : Element) (s' : ElementState)
        (ds : List ElementData), Element.create s d = .ok (e, s') →
      (Element.run_creates s' ds).get_by_index e.index = .ok e
        ∧ (Element.run_creates s' ds).get_by_key e.symbol = .ok e)
    ∧ (∀ (s : ValenceElementState) (d : ValenceElementData) (e : ValenceElement)
        (s' : ValenceElementState) (ds : List ValenceElementData),
        ValenceElement.create s d = .ok (e, s') →
      (ValenceElement.run_creates s' ds).get_by_index e.index = .ok e
        ∧ (ValenceElement.run_creates s' ds).get_by_key e.symbol = .ok e
        ∧ (ValenceElement.run_creates s' ds).get_by_composition e.composition = .ok e)
    ∧ (∀ (s : AtomicGroupState) (d : AtomicGroupData) (e : AtomicGroup)
        (s' : AtomicGroupState) (ds : List AtomicGroupData),
        AtomicGroup.create s d = .ok (e, s') →
      (AtomicGroup.run_creates s' ds).get_by_index e.index = .ok e
        ∧ (AtomicGroup.run_creates s' ds).get_by_key e.symbol = .ok e) := by
  refine ⟨?_, ?_, ?_⟩
  · intro s d e s' ds hcr
    obtain ⟨hf, hidx, hreg, hdict⟩ := element_create_ok s d e s' hcr
    have htr : s'.tracks e := by
      constructor
      · rw [hdict]
        simp [lookupKey]
      · rw [hreg, hidx, List.getElem?_concat_length]
    exact element_tracks_get _ e (element_run_creates_tracks ds s' e htr)
  · intro s d e s' ds hcr
    obtain ⟨hf, hfc, hidx, hreg, hdict, hcdict⟩ := ve_create_ok s d e s' hcr
    have htr : s'.tracks e := by
      refine ⟨?_, ?_, ?_⟩
      · rw [hdict]
        simp [lookupKey]
      · rw [hcdict]
        simp [lookupKey]
      · rw [hreg, hidx, List.getElem?_concat_length]
    exact ve_tracks_get _ e (ve_run_creates_tracks ds s' e htr)
  · intro s d e s' ds hcr
    obtain ⟨hf, hidx, hreg, hdict⟩ := ag_create_ok s d e s' hcr
    have htr : s'.tracks e := by
      constructor
      · rw [hdict]
        simp [lookupKey]
      · rw [hreg, hidx, List.getElem?_concat_length]
    exact ag_tracks_get _ e (ag_run_creates_tracks ds s' e htr)

/-- Claim C7 witness: the created oxygen element, `Fe(+2)` and carbonate
group are resolved back by index and by each registered key, also after a
later unrelated creation. -/
theorem C7_identity_and_key_roundtrip_witness :
    ((Element.run_creates sampleElementState [⟨some "H", none, none⟩]).get_by_index oElem.index
        = .ok oElem
      ∧ (Element.run_creates sampleElementState [⟨some "H", none, none⟩]).get_by_key oElem.symbol
        = .ok oElem)
    ∧ ((ValenceElement.run_creates sampleVEState [⟨eO, -2, none, none⟩]).get_by_index feVE.index
        = .ok feVE
      ∧ (ValenceElement.run_creates sampleVEState [⟨eO, -2, none, none⟩]).get_by_key feVE.symbol
        = .ok feVE
      ∧ (ValenceElement.run_creates sampleVEState
          [⟨eO, -2, none, none⟩]).get_by_composition feVE.composition = .ok feVE)
    ∧ ((AtomicGroup.run_creates co3State [multZeroData]).get_by_index co3Group.index
        = .ok co3Group
      ∧ (AtomicGroup.run_creates co3State [multZeroData]).get_by_key co3Group.symbol
        = .ok co3Group) :=
  ⟨C7_identity_and_key_roundtrip.1 elementEmpty ⟨some "O", none, none⟩ oElem
      sampleElementState [⟨some "H", none, none⟩] (by decide),
    C7_identity_and_key_roundtrip.2.1 valenceElementEmpty ⟨eFe, 2, none, none⟩ feVE
      sampleVEState [⟨eO, -2, none, none⟩] (by decide),
    C7_identity_and_key_roundtrip.2.2 atomicGroupEmpty co3Data co3Group co3State
      [multZeroData] (by decide)⟩

end TurtleChemistry
